import Mathlib

namespace PixelStudios

mutual

/-- JSON values, the domain of the `selected_options` field. Object fields keep
insertion order, as JavaScript objects (and hence `JSON.stringify`) do: `JsonArr`
is an ordered sequence of values and `JsonObj` an ordered sequence of
key/value fields. -/
inductive JsonVal where
  | null : JsonVal
  | bool : Bool → JsonVal
  | num : ℚ → JsonVal
  | str : String → JsonVal
  | arr : JsonArr → JsonVal
  | obj : JsonObj → JsonVal
deriving DecidableEq

inductive JsonArr where
  | nil : JsonArr
  | cons : JsonVal → JsonArr → JsonArr
deriving DecidableEq

inductive JsonObj where
  | nil : JsonObj
  | cons : String → JsonVal → JsonObj → JsonObj
deriving DecidableEq

end

/-- A product as served by the backend. The cart operations read only its
`id`, `name` and `price` fields (`src/frontend/src/App.js`, lines 77-81);
`description`, `category`, `image_url` and `options` feed the display layer
only, so they are not modelled. Prices are decimals, modelled as rationals. -/
structure Product where
  id : String
  name : String
  price : ℚ
deriving DecidableEq

/-- One cart line item (`App.js` lines 77-83): product id, denormalized name
and unit price captured at add-time, a quantity, and the chosen options
(`null` when the product has none). Quantities are integers; the code never
guards against negative values (spec, section 4.1). -/
structure CartLineItem where
  product_id : String
  product_name : String
  quantity : ℤ
  price : ℚ
  selected_options : JsonVal
deriving DecidableEq

/-- The line-item test `item.product_id === product.id &&
JSON.stringify(item.selected_options) === JSON.stringify(selectedOptions)`
(`App.js` lines 66-67 and 72). On the `JsonVal` domain — finite trees with no
`undefined` and no `NaN`, object fields in insertion order — `JSON.stringify`
is injective, so equality of the two serializations coincides with structural
equality of the values, which is how the comparison is modelled. -/
def itemMatches (productId : String) (selectedOptions : JsonVal)
    (item : CartLineItem) : Bool :=
  item.product_id == productId && item.selected_options == selectedOptions

/-- `addToCart(product, selectedOptions)` (`App.js` lines 64-90): look up an
existing line item with the same product id and `JSON.stringify`-equal
options via `cart.find(...)`; if one exists, map over the cart incrementing
the quantity of every matching item by one; otherwise append a new line item
with quantity 1. Returns the new cart (the argument of `setCart`). The code also
unconditionally emits an "Added to cart" toast (lines 86-89); no claim
concerns it, so it is not part of the returned value. -/
def addToCart (cart : List CartLineItem) (product : Product)
    (selectedOptions : JsonVal) : List CartLineItem :=
  let existingItem := cart.find? (itemMatches product.id selectedOptions)
  match existingItem with
  | some _ =>
      cart.map (fun item =>
        if itemMatches product.id selectedOptions item then
          { item with quantity := item.quantity + 1 }
        else item)
  | none =>
      cart ++ [{ product_id := product.id, product_name := product.name,
                 quantity := 1, price := product.price,
                 selected_options := selectedOptions }]

/-- `removeFromCart(index)` (`App.js` lines 92-94):
`setCart(cart.filter((_, i) => i !== index))`, keeping every element whose
position differs from `index`. -/
def removeFromCart (cart : List CartLineItem) (index : Nat) :
    List CartLineItem :=
  (cart.enum.filter (fun p => p.1 != index)).map Prod.snd

/-- `updateQuantity(index, quantity)` (`App.js` lines 96-102): when the new
quantity is zero, delegate to `removeFromCart`; otherwise map over the cart
replacing the quantity of the element at `index` in place. -/
def updateQuantity (cart : List CartLineItem) (index : Nat) (quantity : ℤ) :
    List CartLineItem :=
  if quantity = 0 then
    removeFromCart cart index
  else
    cart.enum.map (fun p =>
      if p.1 = index then { p.2 with quantity := quantity } else p.2)

/-- `getCartTotal()` (`App.js` lines 104-106):
`cart.reduce((total, item) => total + (item.price * item.quantity), 0)`. -/
def getCartTotal (cart : List CartLineItem) : ℚ :=
  cart.foldl (fun total item => total + item.price * (item.quantity : ℚ)) 0

/-- A user action on the cart: the three cart-mutating handlers of `App.js`. -/
inductive CartOp where
  | add : Product → JsonVal → CartOp
  | remove : Nat → CartOp
  | update : Nat → ℤ → CartOp

/-- Apply one cart operation to a cart. -/
def applyOp (cart : List CartLineItem) : CartOp → List CartLineItem
  | .add p o => addToCart cart p o
  | .remove i => removeFromCart cart i
  | .update i q => updateQuantity cart i q

/-- Apply a sequence of cart operations, left to right. -/
def applyOps (cart : List CartLineItem) (ops : List CartOp) :
    List CartLineItem :=
  ops.foldl applyOp cart

/-- The identity of a line item: the (product identifier, selected_options)
pair (spec, section 3). -/
def itemKey (item : CartLineItem) : String × JsonVal :=
  (item.product_id, item.selected_options)

/-- The cart invariant of spec section 3: no two line items share the same
(product identifier, selected_options) pair. -/
def CartKeysNodup (cart : List CartLineItem) : Prop :=
  (cart.map itemKey).Nodup

/-- `n` successive `addToCart(p, o)` calls with the same product and the same
options, starting from `cart`. -/
def iterateAdd (p : Product) (o : JsonVal) : Nat → List CartLineItem →
    List CartLineItem
  | 0, cart => cart
  | n + 1, cart => iterateAdd p o n (addToCart cart p o)

/-- A toast notification: title, description and optional variant, the fields
the code passes to `toast({...})`. -/
structure Toast where
  title : String
  description : String
  variant : Option String
deriving DecidableEq

/-- The toast of the empty-email checkout guard (`App.js` lines 110-114). -/
def emailRequiredToast : Toast :=
  ⟨"Email required", "Please enter your email address", some "destructive"⟩

/-- The toast of the empty-cart checkout guard (`App.js` lines 119-123). -/
def cartEmptyToast : Toast :=
  ⟨"Cart is empty", "Please add items to your cart before checkout",
   some "destructive"⟩

/-- The toast of a successful order submission (`App.js` lines 143-147). -/
def orderPlacedToast : Toast :=
  ⟨"Order placed successfully!",
   "We will send you the invoice in your email shortly, and will be in touch with you via email.",
   none⟩

/-- The toast of a failed order submission (`App.js` lines 150-154). -/
def orderFailedToast : Toast :=
  ⟨"Error", "Failed to place order. Please try again.", some "destructive"⟩

/-- The toast of a failed product fetch (`App.js` lines 42-46). -/
def productsLoadFailedToast : Toast :=
  ⟨"Error", "Failed to load products", some "destructive"⟩

/-- The toast of a failed order fetch (`App.js` lines 56-60). -/
def ordersLoadFailedToast : Toast :=
  ⟨"Error", "Failed to load orders", some "destructive"⟩

/-- The order payload POSTed to `{API}/orders` (`App.js` lines 129-133). -/
structure OrderPayload where
  customer_email : String
  customer_note : String
  items : List CartLineItem
deriving DecidableEq

/-- An order as returned by `GET {API}/orders`: the submitted fields plus the
server-assigned id, total and timestamp (spec section 3; `App.js` admin panel,
lines 388-423). -/
structure OrderRec where
  id : String
  customer_email : String
  customer_note : String
  items : List CartLineItem
  total_amount : ℚ
  created_at : String
deriving DecidableEq

/-- A network request the client can issue. -/
inductive ApiCall where
  | getProducts : ApiCall
  | getOrders : ApiCall
  | postOrder : OrderPayload → ApiCall
deriving DecidableEq

/-- The component state of `App` (`App.js` lines 21-29), restricted to the
fields the handlers under verification read or write; the dialog-open flags
for cart and admin touch no handler in the claims and are omitted. -/
structure AppState where
  products : List Product
  cart : List CartLineItem
  orders : List OrderRec
  isCheckoutOpen : Bool
  customerEmail : String
  customerNote : String
  loading : Bool
deriving DecidableEq

/-- Outcome of the awaited `axios.post` on `App.js` line 135. -/
inductive PostResult where
  | success : PostResult
  | failure : PostResult
deriving DecidableEq

/-- Result of running an event handler to completion: the next component
state, the toasts emitted, and the network requests issued, in order. -/
structure HandlerResult where
  state : AppState
  toasts : List Toast
  requests : List ApiCall
deriving DecidableEq

/-- `handleCheckout` (`App.js` lines 108-158). The guard `!customerEmail`
trips exactly on the empty string (the one falsy string value, and the
initial value of the field); the second guard checks `cart.length === 0`. When a
guard trips the handler returns before any network activity, so `requests`
is empty and the state is returned untouched. Otherwise the order payload is
POSTed; `backend` stands for the outcome of the awaited call. On success the
cart, email and note are cleared and the checkout dialog closed; on failure
only a toast is emitted. `loading` is set before the request and cleared in
the `finally` block, so it is `false` in the final state of both branches. -/
def handleCheckout (st : AppState) (backend : PostResult) : HandlerResult :=
  if st.customerEmail = "" then
    ⟨st, [emailRequiredToast], []⟩
  else if st.cart.length = 0 then
    ⟨st, [cartEmptyToast], []⟩
  else
    let orderData : OrderPayload := ⟨st.customerEmail, st.customerNote, st.cart⟩
    match backend with
    | .success =>
        ⟨{ st with cart := [], customerEmail := "", customerNote := "",
                   isCheckoutOpen := false, loading := false },
         [orderPlacedToast], [ApiCall.postOrder orderData]⟩
    | .failure =>
        ⟨{ st with loading := false }, [orderFailedToast],
         [ApiCall.postOrder orderData]⟩

/-- `fetchProducts` (`App.js` lines 36-48): a single GET of `{API}/products`;
on success the products state is replaced by the response body, on failure an
error toast is emitted and no state changes. `response` stands for the awaited
outcome of the one `axios.get`; the code contains no retry, so exactly one
request is issued either way. -/
def fetchProducts (st : AppState) (response : Except Unit (List Product)) :
    HandlerResult :=
  match response with
  | .ok data => ⟨{ st with products := data }, [], [ApiCall.getProducts]⟩
  | .error _ => ⟨st, [productsLoadFailedToast], [ApiCall.getProducts]⟩

/-- `fetchOrders` (`App.js` lines 50-62): a single GET of `{API}/orders`; on
success the orders state is replaced by the response body, on failure an error
toast is emitted and no state changes — in particular the catch block does
not reset `orders`. -/
def fetchOrders (st : AppState) (response : Except Unit (List OrderRec)) :
    HandlerResult :=
  match response with
  | .ok data => ⟨{ st with orders := data }, [], [ApiCall.getOrders]⟩
  | .error _ => ⟨st, [ordersLoadFailedToast], [ApiCall.getOrders]⟩

/-- Product A of the spec scenarios (price 10.00). -/
def productA : Product := ⟨"prod-a", "Product A", 10⟩

/-- Product B of the spec scenarios (price 5.50). -/
def productB : Product := ⟨"prod-b", "Product B", 5.5⟩

/-- The options value `{style: "X"}` of the spec scenario. -/
def styleX : JsonVal := .obj (.cons "style" (.str "X") .nil)

/-- A sample persisted order, used as a concrete prior orders state. -/
def sampleOrder : OrderRec :=
  ⟨"order-0001", "buyer@example.com", "", [⟨"prod-a", "Product A", 1, 10, .null⟩],
   10, "2026-01-01T00:00:00Z"⟩

/- ------------------------------------------------------------------ -/
/- Helper lemmas                                                      -/
/- ------------------------------------------------------------------ -/

theorem itemMatches_iff (pid : String) (o : JsonVal) (item : CartLineItem) :
    itemMatches pid o item = true ↔
      item.product_id = pid ∧ item.selected_options = o := by
  simp [itemMatches]

theorem getCartTotal_foldl (cart : List CartLineItem) : ∀ a : ℚ,
    cart.foldl (fun total item => total + item.price * (item.quantity : ℚ)) a
      = a + (cart.map fun item => item.price * (item.quantity : ℚ)).sum := by
  induction cart with
  | nil => intro a; simp
  | cons it rest ih =>
      intro a
      simp [List.foldl_cons, ih, add_assoc]

theorem getCartTotal_eq_sum (cart : List CartLineItem) :
    getCartTotal cart
      = (cart.map fun item => item.price * (item.quantity : ℚ)).sum := by
  simpa [getCartTotal] using getCartTotal_foldl cart 0

/-- C4: after any sequence of cart operations `getCartTotal` equals the sum
over the current line items of unit price times quantity, and on the concrete
cart holding Product A (price 10.00, quantity 2) and Product B (price 5.50,
quantity 1) it equals 25.50. -/
theorem getCartTotal_correct :
    (∀ ops : List CartOp,
        getCartTotal (applyOps [] ops)
          = ((applyOps [] ops).map fun item =>
              item.price * (item.quantity : ℚ)).sum)
    ∧ getCartTotal
        [⟨"prod-a", "Product A", 2, 10, .null⟩,
         ⟨"prod-b", "Product B", 1, 5.5, .null⟩] = 25.5 := by
  refine ⟨fun ops => getCartTotal_eq_sum _, ?_⟩
  norm_num [getCartTotal, List.foldl_cons, List.foldl_nil]

/-- C5: for every cart and every index, `updateQuantity` with new quantity 0
produces exactly the cart `removeFromCart` produces. -/
theorem updateQuantity_zero_eq_removeFromCart (cart : List CartLineItem)
    (i : Nat) : updateQuantity cart i 0 = removeFromCart cart i := by
  simp [updateQuantity]

/-- C6: `handleCheckout` with an empty customer email issues no request and
returns the state unchanged, whatever the cart holds; with a non-empty email
but an empty cart it likewise issues no request and returns the state
unchanged. -/
theorem handleCheckout_guard_rejections (st : AppState) (b : PostResult) :
    (st.customerEmail = "" →
        handleCheckout st b = ⟨st, [emailRequiredToast], []⟩)
    ∧ (st.customerEmail ≠ "" → st.cart = [] →
        handleCheckout st b = ⟨st, [cartEmptyToast], []⟩) := by
  constructor
  · intro h
    simp [handleCheckout, h]
  · intro h hc
    simp [handleCheckout, h, hc]

/-- Witness for `handleCheckout_guard_rejections` at concrete states: one with
an empty email and a non-empty cart, one with a non-empty email and an empty
cart. -/
theorem handleCheckout_guard_rejections_witness :
    handleCheckout
        ⟨[], [⟨"prod-a", "Product A", 1, 10, .null⟩], [], true, "", "note", false⟩
        .success
      = ⟨⟨[], [⟨"prod-a", "Product A", 1, 10, .null⟩], [], true, "", "note", false⟩,
         [emailRequiredToast], []⟩
    ∧ handleCheckout ⟨[], [], [], true, "buyer@example.com", "", false⟩ .failure
      = ⟨⟨[], [], [], true, "buyer@example.com", "", false⟩,
         [cartEmptyToast], []⟩ :=
  ⟨(handleCheckout_guard_rejections _ _).1 rfl,
   (handleCheckout_guard_rejections _ _).2 (by decide) rfl⟩

/-- C7: once both guards pass, a successful POST leaves an empty cart, empty
email and note fields, and a closed checkout view, while a failed POST leaves
cart, email and note exactly as they were before submission. -/
theorem handleCheckout_submission (st : AppState)
    (hEmail : st.customerEmail ≠ "") (hCart : st.cart ≠ []) :
    (handleCheckout st .success).state.cart = []
    ∧ (handleCheckout st .success).state.customerEmail = ""
    ∧ (handleCheckout st .success).state.customerNote = ""
    ∧ (handleCheckout st .success).state.isCheckoutOpen = false
    ∧ (handleCheckout st .failure).state.cart = st.cart
    ∧ (handleCheckout st .failure).state.customerEmail = st.customerEmail
    ∧ (handleCheckout st .failure).state.customerNote = st.customerNote := by
  have hlen : ¬ st.cart.length = 0 := by
    simpa [List.length_eq_zero] using hCart
  simp [handleCheckout, hEmail, hlen]

/-- Witness for `handleCheckout_submission` at a concrete pre-submission
state. -/
theorem handleCheckout_submission_witness :
    (handleCheckout
        ⟨[], [⟨"prod-a", "Product A", 2, 10, .null⟩], [], true,
         "buyer@example.com", "please hurry", false⟩ .success).state.cart = []
    ∧ (handleCheckout
        ⟨[], [⟨"prod-a", "Product A", 2, 10, .null⟩], [], true,
         "buyer@example.com", "please hurry", false⟩ .failure).state.cart
        = [⟨"prod-a", "Product A", 2, 10, .null⟩] :=
  ⟨(handleCheckout_submission _ (by decide) (by decide)).1,
   (handleCheckout_submission _ (by decide) (by decide)).2.2.2.2.1⟩

/-- C10: when the email is empty and the cart is empty as well, the handler
emits exactly the email-required toast — which differs from the
cart-is-empty toast — and issues no request: the email guard runs first. -/
theorem handleCheckout_email_guard_first (st : AppState) (b : PostResult)
    (hEmail : st.customerEmail = "") (_hCart : st.cart = []) :
    handleCheckout st b = ⟨st, [emailRequiredToast], []⟩
    ∧ emailRequiredToast ≠ cartEmptyToast := by
  refine ⟨?_, by decide⟩
  simp [handleCheckout, hEmail]

/-- Witness for `handleCheckout_email_guard_first` at the initial state. -/
theorem handleCheckout_email_guard_first_witness :
    handleCheckout ⟨[], [], [], false, "", "", false⟩ .success
      = ⟨⟨[], [], [], false, "", "", false⟩, [emailRequiredToast], []⟩
    ∧ emailRequiredToast ≠ cartEmptyToast :=
  handleCheckout_email_guard_first _ .success rfl rfl

/-- C9: a failed product fetch emits the error toast, leaves the whole state
(in particular the products list) unchanged, and issues exactly the one GET —
no retry. -/
theorem fetchProducts_failure (st : AppState) :
    fetchProducts st (.error ())
      = ⟨st, [productsLoadFailedToast], [ApiCall.getProducts]⟩ := rfl

/-- C8 counterexample: with a non-empty prior orders state, a failed order
fetch emits the error toast but the orders state — which the admin panel
renders — is not empty. -/
theorem fetchOrders_failure_list_not_empty :
    (fetchOrders ⟨[], [], [sampleOrder], false, "", "", false⟩
        (.error ())).toasts = [ordersLoadFailedToast]
    ∧ (fetchOrders ⟨[], [], [sampleOrder], false, "", "", false⟩
        (.error ())).state.orders ≠ [] :=
  ⟨rfl, by decide⟩

/-- C8 amended: a failed order fetch emits the error toast and leaves the
whole state — in particular the orders list the admin panel renders —
unchanged, so the rendered list is empty exactly when it was empty before the
call (as on a first open). -/
theorem fetchOrders_failure_keeps_orders (st : AppState) :
    fetchOrders st (.error ())
      = ⟨st, [ordersLoadFailedToast], [ApiCall.getOrders]⟩ := rfl

/- Cart lemmas for the add/merge behaviour and the identity-key invariant. -/

theorem addToCart_not_found (cart : List CartLineItem) (p : Product)
    (o : JsonVal) (h : ∀ item ∈ cart, ¬ itemMatches p.id o item = true) :
    addToCart cart p o
      = cart ++ [{ product_id := p.id, product_name := p.name, quantity := 1,
                   price := p.price, selected_options := o }] := by
  have hf : cart.find? (itemMatches p.id o) = none := List.find?_eq_none.mpr h
  simp [addToCart, hf]

theorem addToCart_new_filter (cart : List CartLineItem) (p : Product)
    (o : JsonVal) (h : cart.filter (itemMatches p.id o) = []) :
    (addToCart cart p o).filter (itemMatches p.id o)
      = [{ product_id := p.id, product_name := p.name, quantity := 1,
           price := p.price, selected_options := o }] := by
  have hall := List.filter_eq_nil_iff.mp h
  rw [addToCart_not_found cart p o hall, List.filter_append, h]
  simp [itemMatches]

theorem addToCart_found_filter (cart : List CartLineItem) (p : Product)
    (o : JsonVal) (it : CartLineItem)
    (h : cart.filter (itemMatches p.id o) = [it]) :
    (addToCart cart p o).filter (itemMatches p.id o)
      = [{ it with quantity := it.quantity + 1 }] := by
  have hmem : it ∈ cart.filter (itemMatches p.id o) := by
    rw [h]; exact List.mem_singleton_self it
  have hit := List.mem_filter.mp hmem
  cases hfind : cart.find? (itemMatches p.id o) with
  | none =>
      exact absurd hit.2 (List.find?_eq_none.mp hfind it hit.1)
  | some y =>
      simp only [addToCart, hfind]
      rw [List.filter_map]
      have hcong : ∀ x ∈ cart,
          (itemMatches p.id o ∘ fun item =>
            if itemMatches p.id o item then
              { item with quantity := item.quantity + 1 }
            else item) x = itemMatches p.id o x := by
        intro x _
        simp only [Function.comp_apply]
        by_cases hx : itemMatches p.id o x = true
        · rw [if_pos hx]
          simp [itemMatches]
        · rw [if_neg hx]
      rw [List.filter_congr hcong, h]
      simp [hit.2]

theorem iterateAdd_filter (p : Product) (o : JsonVal) :
    ∀ (n : Nat) (cart : List CartLineItem) (it : CartLineItem),
      cart.filter (itemMatches p.id o) = [it] →
      (iterateAdd p o n cart).filter (itemMatches p.id o)
        = [{ it with quantity := it.quantity + (n : ℤ) }] := by
  intro n
  induction n with
  | zero =>
      intro cart it h
      simpa [iterateAdd] using h
  | succ n ih =>
      intro cart it h
      have h2 := addToCart_found_filter cart p o it h
      have h3 := ih (addToCart cart p o) _ h2
      have hq : it.quantity + 1 + (n : ℤ) = it.quantity + ((n + 1 : ℕ) : ℤ) := by
        push_cast
        ring
      rw [iterateAdd, h3, hq]

/-- C1: starting from any cart holding no line item for (p, o), after `n ≥ 1`
calls of `addToCart(p, o)` with the same product and identical options, the
cart holds exactly one line item for (p, o) and its quantity is `n`. -/
theorem addToCart_same_options_accumulates (cart : List CartLineItem)
    (p : Product) (o : JsonVal) (n : Nat) (hn : 1 ≤ n)
    (h : cart.filter (itemMatches p.id o) = []) :
    (iterateAdd p o n cart).filter (itemMatches p.id o)
      = [{ product_id := p.id, product_name := p.name, quantity := (n : ℤ),
           price := p.price, selected_options := o }] := by
  obtain ⟨m, rfl⟩ : ∃ m, n = m + 1 := ⟨n - 1, by omega⟩
  have h1 := addToCart_new_filter cart p o h
  have h2 := iterateAdd_filter p o m _ _ h1
  rw [iterateAdd, h2]
  have hq : (1 : ℤ) + (m : ℤ) = ((m + 1 : ℕ) : ℤ) := by
    push_cast
    ring
  simp [hq]

/-- Witness for `addToCart_same_options_accumulates`: three adds of Product A
with no options to the empty cart leave one line item of quantity 3. -/
theorem addToCart_same_options_accumulates_witness :
    (1 ≤ 3 ∧ ([] : List CartLineItem).filter (itemMatches productA.id .null) = [])
    ∧ (iterateAdd productA .null 3 []).filter (itemMatches productA.id .null)
      = [{ product_id := productA.id, product_name := productA.name,
           quantity := ((3 : ℕ) : ℤ), price := productA.price,
           selected_options := .null }] :=
  ⟨⟨by decide, rfl⟩,
   addToCart_same_options_accumulates [] productA .null 3 (by decide) rfl⟩

/-- C2: adding the same product twice to an empty cart with options that
differ by deep value yields two distinct line items, each of quantity one. -/
theorem addToCart_different_options_two_items (p : Product) (o1 o2 : JsonVal)
    (h : o1 ≠ o2) :
    addToCart (addToCart [] p o1) p o2
      = [{ product_id := p.id, product_name := p.name, quantity := 1,
           price := p.price, selected_options := o1 },
         { product_id := p.id, product_name := p.name, quantity := 1,
           price := p.price, selected_options := o2 }]
    ∧ ({ product_id := p.id, product_name := p.name, quantity := 1,
         price := p.price, selected_options := o1 } : CartLineItem)
      ≠ { product_id := p.id, product_name := p.name, quantity := 1,
          price := p.price, selected_options := o2 } := by
  constructor
  · have h1 : addToCart [] p o1
        = [{ product_id := p.id, product_name := p.name, quantity := 1,
             price := p.price, selected_options := o1 }] :=
      addToCart_not_found [] p o1 (by simp)
    have h2 : ∀ item ∈
        [({ product_id := p.id, product_name := p.name, quantity := 1,
            price := p.price, selected_options := o1 } : CartLineItem)],
        ¬ itemMatches p.id o2 item = true := by
      intro item hitem
      rw [List.mem_singleton] at hitem
      subst hitem
      simp [itemMatches, h]
    rw [h1, addToCart_not_found _ p o2 h2]
    rfl
  · intro hcontra
    exact h (congrArg CartLineItem.selected_options hcontra)

/-- Witness for `addToCart_different_options_two_items`: Product A added with
no options and then with `{style: "X"}`. -/
theorem addToCart_different_options_two_items_witness :
    addToCart (addToCart [] productA .null) productA styleX
      = [{ product_id := productA.id, product_name := productA.name,
           quantity := 1, price := productA.price, selected_options := .null },
         { product_id := productA.id, product_name := productA.name,
           quantity := 1, price := productA.price, selected_options := styleX }] :=
  (addToCart_different_options_two_items productA .null styleX (by decide)).1

/- Invariant preservation for the identity keys of the line items. -/

theorem keys_map_of_preserve (cart : List CartLineItem)
    (f : CartLineItem → CartLineItem)
    (hf : ∀ x, itemKey (f x) = itemKey x) :
    (cart.map f).map itemKey = cart.map itemKey := by
  rw [List.map_map]
  exact List.map_congr_left (fun a _ => hf a)

theorem addToCart_preserves_nodup (cart : List CartLineItem) (p : Product)
    (o : JsonVal) (h : CartKeysNodup cart) :
    CartKeysNodup (addToCart cart p o) := by
  unfold CartKeysNodup at *
  cases hfind : cart.find? (itemMatches p.id o) with
  | some y =>
      simp only [addToCart, hfind]
      rw [keys_map_of_preserve]
      · exact h
      · intro x
        by_cases hx : itemMatches p.id o x = true
        · rw [if_pos hx]
          simp [itemKey]
        · rw [if_neg hx]
  | none =>
      simp only [addToCart, hfind]
      rw [List.map_append]
      have hnone := List.find?_eq_none.mp hfind
      have hnotmem : (p.id, o) ∉ cart.map itemKey := by
        intro hmem
        rcases List.mem_map.mp hmem with ⟨x, hx, hkey⟩
        apply hnone x hx
        rw [itemMatches_iff]
        exact ⟨congrArg Prod.fst hkey, congrArg Prod.snd hkey⟩
      refine List.Nodup.append h (List.nodup_singleton _) ?_
      simpa [itemKey, List.disjoint_singleton] using hnotmem

theorem removeFromCart_sublist (cart : List CartLineItem) (i : Nat) :
    List.Sublist (removeFromCart cart i) cart := by
  have h1 : List.Sublist (cart.enum.filter (fun p => p.1 != i)) cart.enum :=
    List.filter_sublist _
  have h2 := h1.map Prod.snd
  simpa [removeFromCart, List.enum_map_snd] using h2

theorem removeFromCart_preserves_nodup (cart : List CartLineItem) (i : Nat)
    (h : CartKeysNodup cart) : CartKeysNodup (removeFromCart cart i) := by
  unfold CartKeysNodup at *
  exact h.sublist ((removeFromCart_sublist cart i).map itemKey)

theorem updateQuantity_keys (cart : List CartLineItem) (i : Nat) (q : ℤ)
    (hq : q ≠ 0) :
    (updateQuantity cart i q).map itemKey = cart.map itemKey := by
  simp only [updateQuantity, if_neg hq]
  rw [List.map_map]
  have hcong : ∀ a ∈ cart.enum,
      (itemKey ∘ fun p : Nat × CartLineItem =>
        if p.1 = i then { p.2 with quantity := q } else p.2) a
        = (itemKey ∘ Prod.snd) a := by
    intro a _
    simp only [Function.comp_apply]
    by_cases ha : a.1 = i
    · rw [if_pos ha]
      simp [itemKey]
    · rw [if_neg ha]
  rw [List.map_congr_left hcong, ← List.map_map, List.enum_map_snd]

theorem updateQuantity_preserves_nodup (cart : List CartLineItem) (i : Nat)
    (q : ℤ) (h : CartKeysNodup cart) :
    CartKeysNodup (updateQuantity cart i q) := by
  by_cases hq : q = 0
  · subst hq
    have h0 : updateQuantity cart i 0 = removeFromCart cart i := by
      simp [updateQuantity]
    rw [h0]
    exact removeFromCart_preserves_nodup cart i h
  · unfold CartKeysNodup at *
    rw [updateQuantity_keys cart i q hq]
    exact h

theorem applyOp_preserves_nodup (cart : List CartLineItem) (op : CartOp)
    (h : CartKeysNodup cart) : CartKeysNodup (applyOp cart op) := by
  cases op with
  | add p o => exact addToCart_preserves_nodup cart p o h
  | remove i => exact removeFromCart_preserves_nodup cart i h
  | update i q => exact updateQuantity_preserves_nodup cart i q h

theorem applyOps_preserves_nodup (ops : List CartOp) :
    ∀ cart : List CartLineItem, CartKeysNodup cart →
      CartKeysNodup (applyOps cart ops) := by
  induction ops with
  | nil => intro cart h; simpa [applyOps] using h
  | cons op rest ih =>
      intro cart h
      have : applyOps cart (op :: rest) = applyOps (applyOp cart op) rest := rfl
      rw [this]
      exact ih _ (applyOp_preserves_nodup cart op h)

/-- C3: every cart reachable from the empty cart by a sequence of `addToCart`,
`removeFromCart` and `updateQuantity` operations satisfies the invariant that
no two line items share the same (product identifier, selected_options)
pair, options compared by deep value. -/
theorem cart_invariant_reachable (ops : List CartOp) :
    CartKeysNodup (applyOps [] ops) :=
  applyOps_preserves_nodup ops [] (by simp [CartKeysNodup])

end PixelStudios
